import Mathlib

/-!
Verification development for the multi-source marketplace scraping engine
(Python repository: scraper manager, marketplace scrapers, proxy managers,
text matching utilities).  Every definition below is a shallow embedding of a
function of the repository; theorems at the end settle the specification
claims against these embeddings.

Conventions of the embedding:
* Python `float` prices are modelled as exact rationals (the repository only
  ever builds them from decimal strings).
* Python `None` becomes `Option.none`; a Python function that can raise is
  embedded either as a total function (when every exception path in the source
  is caught) or as an `Option`.
* Randomness (`random.choice`, `random.uniform`, ...) is an input: the draw
  functions are passed explicitly.
* Database rows mutated in place become explicit state passing.
-/

/-! ## Python-level helpers -/

/-- Python whitespace characters (`str.split`, `\s` in `re`), ASCII range. -/
def pyIsSpace (c : Char) : Bool :=
  c = ' ' || c = '\t' || c = '\n' || c = '\r' || c = '\x0b' || c = '\x0c'

/-- Lowercasing of one character as Python `str.lower` does on the alphabets
this repository handles (ASCII plus the Polish letters that occur in it). -/
def pyLowerChar (c : Char) : Char :=
  if 'A' ≤ c ∧ c ≤ 'Z' then Char.ofNat (c.toNat + 32)
  else if c = 'Ł' then 'ł' else if c = 'Ó' then 'ó'
  else if c = 'Ą' then 'ą' else if c = 'Ć' then 'ć'
  else if c = 'Ę' then 'ę' else if c = 'Ń' then 'ń'
  else if c = 'Ś' then 'ś' else if c = 'Ź' then 'ź'
  else if c = 'Ż' then 'ż' else c

/-- Python `str.lower`. -/
def pyLower (s : String) : String := String.mk (s.toList.map pyLowerChar)

/-- `needle in hay` on Python strings, as lists of characters. -/
def listContains (needle hay : List Char) : Bool :=
  hay.tails.any (fun t => needle.isPrefixOf t)

/-- Python substring test `needle in hay`. -/
def pyIn (needle hay : String) : Bool := listContains needle.toList hay.toList

/-- Truthiness of an optional Python string (`if filters.get(k)`). -/
def pyTruthy : Option String → Bool
  | none => false
  | some s => s ≠ ""

/-- CPython index normalisation for a step-1 slice bound on a list of
length `n`: negative indices count from the end, then both are clamped. -/
def pySliceIdx (n : ℕ) (i : ℤ) : ℕ :=
  if i < 0 then (max (i + n) 0).toNat else min i.toNat n

/-- Python list slice `l[a:b]` (step 1). -/
def pySlice {α : Type} (l : List α) (a b : ℤ) : List α :=
  let s := pySliceIdx l.length a
  let e := pySliceIdx l.length b
  (l.drop s).take (e - s)

/-! ## Canonical item record

The union of the dictionary keys the embedded scrapers put into one listing
item (`additional_data` and marketplace-specific keys such as `make` are kept
on the specialised records further below). -/

structure Item where
  title : String
  price : ℚ
  currency : String
  descr : String
  url : String
  image_url : Option String
  marketplace : String
  location : String
  posted_at : String
  seller_name : String
  seller_rating : Option ℚ
  condition : String
deriving Repr, DecidableEq

/-! ## SimpleScraperManager (src/simple_scraper_manager.py)

`search` takes the registry lookup result for the requested marketplace.
`ScrapeOutcome.ok` is a scraper returning a list, `ScrapeOutcome.exc` a
scraper whose `search` raised (caught at line 231 of the source). -/

inductive ScrapeOutcome where
  | ok (items : List Item)
  | exc (msg : String)
deriving Repr, DecidableEq

/-- The draws consumed by `_generate_mock_results`:
`random.randint(5, 15)` for the count and the per-item draws. -/
structure MockRand where
  countDraw : ℕ
  kwIdx : ℕ → ℕ
  priceDraw : ℕ → ℚ
  locIdx : ℕ → ℕ
  condIdx : ℕ → ℕ
  ratingDraw : ℕ → ℚ
  postedStr : ℕ → String

/-- `random.choice(l)` for nonempty `l`, with the index drawn externally. -/
def pyChoice {α : Type} (l : List α) (dflt : α) (idx : ℕ) : α :=
  l.getD (idx % l.length) dflt

/-- Uppercasing of one ASCII character, for Python `str.title`. -/
def pyUpperChar (c : Char) : Char :=
  if 'a' ≤ c ∧ c ≤ 'z' then Char.ofNat (c.toNat - 32) else c

/-- Python `str.title` (ASCII-cased): uppercase a letter that follows a
non-letter, lowercase the rest. -/
def pyTitle (s : String) : String :=
  String.mk ((s.toList.foldl
    (fun (st : List Char × Bool) c =>
      let out := if st.2 then pyLowerChar c else pyUpperChar c
      (out :: st.1, c.isAlpha))
    ([], false)).1.reverse)

/-- `SimpleScraperManager._generate_mock_results` (lines 255-324): builds
exactly `count` synthetic items from the given draws. -/
def generateMockResults (marketplace : String) (keywords : List String)
    (locationFilter conditionFilter : Option String) (count : ℕ)
    (r : MockRand) : List Item :=
  (List.range count).map (fun i =>
    let mainKeyword := if keywords ≠ [] then pyChoice keywords "" (r.kwIdx i) else "Product"
    let title := pyTitle mainKeyword ++ " - Sample Item " ++ toString (i + 1)
    let locations :=
      match locationFilter with
      | some l => if l ≠ "" then [l] else ["Warsaw", "Krakow", "Gdansk", "Poznan", "Wroclaw", "Lodz", "Katowice"]
      | none => ["Warsaw", "Krakow", "Gdansk", "Poznan", "Wroclaw", "Lodz", "Katowice"]
    let conditions :=
      match conditionFilter with
      | some c => if c ≠ "" then [c] else ["new", "used", "damaged"]
      | none => ["new", "used", "damaged"]
    { title := title
      price := r.priceDraw i
      currency := "PLN"
      descr := "This is a sample description for " ++ title ++ ". Generated for testing purposes."
      url := "https://" ++ marketplace ++ ".pl/item/" ++ toString (i + 1)
      image_url := some ("https://picsum.photos/seed/" ++ marketplace ++ toString i ++ "/300/200")
      marketplace := marketplace
      location := pyChoice locations "" (r.locIdx i)
      posted_at := r.postedStr i
      seller_name := "Sample Seller " ++ toString (i + 1)
      seller_rating := some (r.ratingDraw i)
      condition := pyChoice conditions "" (r.condIdx i) })

/-- Shape of `SimpleScraperManager.search`'s returned dictionary. -/
structure SearchResponse where
  results : List Item
  total : ℕ
  page : ℤ
  items_per_page : ℤ
  has_more : Bool
  error : Option String
deriving Repr, DecidableEq

/-- `SimpleScraperManager.search` (lines 196-253).  `lookup` is
`self.scrapers.get(marketplace)` together with the outcome of running the
scraper when one exists; the mock branches consume `r`. -/
def managerSearch (marketplace : String) (keywords : List String)
    (locationFilter conditionFilter : Option String)
    (lookup : Option ScrapeOutcome) (r : MockRand)
    (page : ℤ) (items_per_page : ℤ) : SearchResponse :=
  match lookup with
  | some (.ok results) =>
      let startIdx := (page - 1) * items_per_page
      let endIdx := startIdx + items_per_page
      let paginated := if startIdx < (results.length : ℤ) then pySlice results startIdx endIdx else []
      { results := paginated
        total := results.length
        page := page
        items_per_page := items_per_page
        has_more := decide (endIdx < (results.length : ℤ))
        error := none }
  | some (.exc msg) =>
      let mocks := generateMockResults marketplace keywords locationFilter conditionFilter r.countDraw r
      { results := mocks, total := mocks.length, page := page
        items_per_page := items_per_page, has_more := false, error := some msg }
  | none =>
      let mocks := generateMockResults marketplace keywords locationFilter conditionFilter r.countDraw r
      { results := mocks, total := mocks.length, page := page
        items_per_page := items_per_page, has_more := false, error := none }

/-! ## Proxy managers

`src/scraper/proxy_manager.py` (class `ProxyManager`, threshold
`max_failures`, default 3) and `src/utils/proxy_manager.py` (hard-coded
threshold 5).  A database `Proxy` row is the record below; the mutating
methods become state transformers.  `now` stands for `datetime.utcnow()`. -/

structure ProxyRec where
  is_active : Bool
  failure_count : ℕ
  last_used : Option ℕ
deriving Repr, DecidableEq

/-- `ProxyManager.mark_success` (src/scraper/proxy_manager.py lines 116-126):
update `last_used`, reset the failure count, leave `is_active` untouched. -/
def markSuccess (p : ProxyRec) (now : ℕ) : ProxyRec :=
  let p := { p with last_used := some now }
  if p.failure_count > 0 then { p with failure_count := 0 } else p

/-- `ProxyManager.mark_failure` (src/scraper/proxy_manager.py lines 128-142):
increment the failure count, update `last_used`, and deactivate once the
count reaches `max_failures`. -/
def markFailure (max_failures : ℕ) (p : ProxyRec) (now : ℕ) : ProxyRec :=
  let p := { p with failure_count := p.failure_count + 1, last_used := some now }
  if p.failure_count ≥ max_failures then { p with is_active := false } else p

/-- `ProxyManager.report_proxy_failure` (src/utils/proxy_manager.py lines
89-116), acting on the row it found: threshold hard-coded to 5. -/
def reportProxyFailure (p : ProxyRec) : ProxyRec :=
  let p := { p with failure_count := p.failure_count + 1 }
  if p.failure_count ≥ 5 then { p with is_active := false } else p

/-- `ProxyManager.reset_failure_count` (src/utils/proxy_manager.py lines
118-138): zero the count when positive, touch nothing else. -/
def resetFailureCount (p : ProxyRec) : ProxyRec :=
  if p.failure_count > 0 then { p with failure_count := 0 } else p

/-- One health-accounting operation of either proxy manager on one row. -/
inductive ProxyOp where
  | success (now : ℕ)
  | failure (now : ℕ)
  | utilsFailure
  | utilsReset
deriving Repr, DecidableEq

/-- Apply one operation (`max_failures` parametrises the scraper manager). -/
def applyProxyOp (max_failures : ℕ) (p : ProxyRec) : ProxyOp → ProxyRec
  | .success now => markSuccess p now
  | .failure now => markFailure max_failures p now
  | .utilsFailure => reportProxyFailure p
  | .utilsReset => resetFailureCount p

/-! ## Extraction strategy chain (src/scraper/olx_scraper.py, `search`)

Lines 68-99: three strategies tried in order (`_parse_with_api`,
`_parse_with_trafilatura`, `_parse_search_page`), each wrapped in
`try/except`; a strategy that raises is logged and skipped, the first
non-empty item list is returned, and exhaustion returns `[]`. -/

inductive StratOutcome where
  | ok (items : List Item)
  | exc (msg : String)
deriving Repr, DecidableEq

/-- A strategy outcome that does not deliver items: it raised, or it
returned an empty list. -/
def stratFails : StratOutcome → Prop
  | .ok items => items = []
  | .exc _ => True

instance (s : StratOutcome) : Decidable (stratFails s) := by
  cases s <;> simp [stratFails] <;> infer_instance

/-- The chain executor, together with the number of strategies executed:
`try: items = strategy(); if items: return items; except: pass` per entry. -/
def runChain : List StratOutcome → List Item × ℕ
  | [] => ([], 0)
  | .ok items :: rest =>
      if items ≠ [] then (items, 1)
      else
        let (r, n) := runChain rest
        (r, n + 1)
  | .exc _ :: rest =>
      let (r, n) := runChain rest
      (r, n + 1)

/-- Outcomes of the three parse attempts inside one `OLXScraper.search` call,
in source order. -/
structure OLXSearchEnv where
  api : StratOutcome
  trafilatura : StratOutcome
  direct : StratOutcome

/-- `OLXScraper.search` (lines 68-99), written with the source's branch
structure: each strategy is guarded by `try/except` and returns early only
on a non-empty list. -/
def olxSearch (env : OLXSearchEnv) : List Item :=
  match env.api with
  | .ok items =>
      if items ≠ [] then items
      else match env.trafilatura with
        | .ok items2 =>
            if items2 ≠ [] then items2
            else match env.direct with
              | .ok items3 => if items3 ≠ [] then items3 else []
              | .exc _ => []
        | .exc _ =>
            match env.direct with
            | .ok items3 => if items3 ≠ [] then items3 else []
            | .exc _ => []
  | .exc _ =>
      match env.trafilatura with
      | .ok items2 =>
          if items2 ≠ [] then items2
          else match env.direct with
            | .ok items3 => if items3 ≠ [] then items3 else []
            | .exc _ => []
      | .exc _ =>
          match env.direct with
          | .ok items3 => if items3 ≠ [] then items3 else []
          | .exc _ => []

/-! ## HTTP fetch layer (`BaseScraper.get_with_retry`)

`src/attached_assets/base_scraper.py` lines 36-188.  One attempt either
yields a response with a status code or raises a caught request exception;
`env k` is the outcome of attempt `k` (`none` = exception).  The function
returns the response only on status 200; every other outcome increments
`retries` and sleeps `2 ** retries` seconds, until `max_retries` attempts
failed, and then gives up with `None`.  The sibling
`src/scraper/base_scraper.py` (lines 70-129) differs only in returning
non-200/403/429 responses immediately and in jittering the backoff. -/

def runRetry (env : ℕ → Option ℕ) : ℕ → ℕ → Option ℕ × List ℕ
  | 0, _ => (none, [])
  | n + 1, k =>
      match env k with
      | some 200 => (some 200, [])
      | _ =>
          let (r, sleeps) := runRetry env n (k + 1)
          (r, 2 ^ (k + 1) :: sleeps)

/-- `get_with_retry(url)` with the default `max_retries=3`, returning the
status of the returned response (if any) and the trace of backoff sleeps. -/
def getWithRetry (env : ℕ → Option ℕ) (max_retries : ℕ := 3) : Option ℕ × List ℕ :=
  runRetry env max_retries 0

/-! ## Shared concrete inputs for witnesses -/

/-- A concrete canonical item used by witnesses. -/
def sampleItem : Item :=
  { title := "Sample", price := 1, currency := "PLN", descr := "", url := "u"
    image_url := none, marketplace := "olx", location := "Warsaw"
    posted_at := "", seller_name := "Unknown", seller_rating := none
    condition := "Unknown" }

/-- A concrete draw record (`randint(5,15)` drew 7). -/
def mockR0 : MockRand :=
  { countDraw := 7, kwIdx := fun _ => 0, priceDraw := fun _ => 100
    locIdx := fun _ => 0, condIdx := fun _ => 0, ratingDraw := fun _ => 4
    postedStr := fun _ => "2025-05-01 12:00" }

/-- A concrete 45-item scraper result list. -/
def results45 : List Item := List.replicate 45 sampleItem

lemma generateMockResults_length (mk : String) (kws : List String)
    (lf cf : Option String) (n : ℕ) (r : MockRand) :
    (generateMockResults mk kws lf cf n r).length = n := by
  simp [generateMockResults]

/-! ## Claim C1: extraction strategy chain -/

/-- C1: the strategy chain is tried in its fixed order; if the first `k`
strategies raise or yield no items and strategy `k+1` yields a non-empty
list, the chain returns exactly that list having executed exactly `k+1`
strategies (later ones are never invoked); a raising strategy only advances
the chain; if every strategy fails to deliver items the chain runs them all
and returns `[]` without raising; and `OLXScraper.search` is exactly this
chain over its three parse strategies. -/
theorem c1_strategy_chain :
    (∀ (pre : List StratOutcome) (items : List Item) (post : List StratOutcome),
      (∀ s ∈ pre, stratFails s) → items ≠ [] →
      runChain (pre ++ .ok items :: post) = (items, pre.length + 1)) ∧
    (∀ strats : List StratOutcome,
      (∀ s ∈ strats, stratFails s) → runChain strats = ([], strats.length)) ∧
    (∀ env : OLXSearchEnv,
      olxSearch env = (runChain [env.api, env.trafilatura, env.direct]).1) := by
  refine ⟨?_, ?_, ?_⟩
  · intro pre items post hpre hne
    induction pre with
    | nil => simp [runChain, hne]
    | cons s rest ih =>
      have hs : stratFails s := hpre s (by simp)
      have hrest : ∀ t ∈ rest, stratFails t := fun t ht => hpre t (by simp [ht])
      cases s with
      | ok l =>
        have hl : l = [] := hs
        subst hl
        simp [runChain, ih hrest]
      | exc m => simp [runChain, ih hrest]
  · intro strats h
    induction strats with
    | nil => simp [runChain]
    | cons s rest ih =>
      have hs : stratFails s := h s (by simp)
      have hrest : ∀ t ∈ rest, stratFails t := fun t ht => h t (by simp [ht])
      cases s with
      | ok l =>
        have hl : l = [] := hs
        subst hl
        simp [runChain, ih hrest]
      | exc m => simp [runChain, ih hrest]
  · intro env
    rcases env with ⟨api, traf, dir⟩
    cases api <;> cases traf <;> cases dir <;>
      simp only [olxSearch, runChain] <;>
      (repeat' split) <;> simp_all

/-- Witness for C1: a chain whose first strategy raises and whose second
returns `[]` stops at the third, non-empty strategy. -/
theorem c1_strategy_chain_witness :
    runChain [.exc "boom", .ok [], .ok [sampleItem], .ok [sampleItem, sampleItem]]
      = ([sampleItem], 3) := by
  have h := c1_strategy_chain.1 [.exc "boom", .ok []] [sampleItem]
    [.ok [sampleItem, sampleItem]]
    (by intro s hs; simp only [List.mem_cons, List.not_mem_nil, or_false] at hs
        rcases hs with rfl | rfl <;> trivial)
    (by simp)
  simpa using h

/-! ## Claim C2 (corrected): registry miss response -/

/-- Counterexample to C2 as stated: a registry miss
(`self.scrapers.get("unknown-source")` is `None`) returns the mock-data
response of lines 243-253 whose dictionary carries NO `error` key at all —
the claimed non-empty `error` field is absent (only the exception branch of
lines 231-242 sets one). -/
theorem c2_registry_miss_counterexample :
    (managerSearch "unknown-source" ["iphone"] none none none mockR0 1 20).error
      = none := by
  rfl

/-- C2 (amended): on a registry miss the orchestrator returns a well-formed
response with a bounded-size synthetic placeholder list (exactly the
`randint(5,15)` draw, hence at most 15 items) and `has_more = false`,
and never raises — but its `error` field is absent (`none`), not non-empty;
only the exception-fallback branch sets `error`. -/
theorem c2_registry_miss_amended (mk : String) (kws : List String)
    (lf cf : Option String) (r : MockRand) (page ipp : ℤ)
    (h5 : 5 ≤ r.countDraw) (h15 : r.countDraw ≤ 15) :
    (managerSearch mk kws lf cf none r page ipp).error = none ∧
    (managerSearch mk kws lf cf none r page ipp).results.length = r.countDraw ∧
    (managerSearch mk kws lf cf none r page ipp).results.length ≤ 15 ∧
    5 ≤ (managerSearch mk kws lf cf none r page ipp).results.length ∧
    (managerSearch mk kws lf cf none r page ipp).total
      = (managerSearch mk kws lf cf none r page ipp).results.length ∧
    (managerSearch mk kws lf cf none r page ipp).has_more = false := by
  simp [managerSearch, generateMockResults_length, h5, h15]

/-- Witness for the amended C2 at a concrete draw. -/
theorem c2_registry_miss_amended_witness :
    (managerSearch "facebook" ["rower"] none none none mockR0 1 20).error = none ∧
    (managerSearch "facebook" ["rower"] none none none mockR0 1 20).results.length = 7 := by
  have h := c2_registry_miss_amended "facebook" ["rower"] none none mockR0 1 20
    (by norm_num [mockR0]) (by norm_num [mockR0])
  exact ⟨h.1, by simpa [mockR0] using h.2.1⟩

/-! ## Claim C3: client-side pagination -/

/-- C3: for a successful single-source search with `page ≥ 1`, the response
is the slice `[start, end)` of the full scraper result list, with
`start = (page-1)*items_per_page`, `end = start+items_per_page` and
`has_more = (end < total)`; and on a 45-item list with 20 items per page,
page 1 has 20 items with `has_more` true, page 3 has the final 5 items with
`has_more` false, and page 4 is empty with `has_more` false. -/
theorem c3_pagination :
    (∀ (results : List Item) (mk : String) (kws : List String)
       (lf cf : Option String) (r : MockRand) (page ipp : ℤ),
      1 ≤ page → 0 ≤ ipp →
      (managerSearch mk kws lf cf (some (.ok results)) r page ipp).results
          = (results.drop ((page - 1) * ipp).toNat).take ipp.toNat ∧
      (managerSearch mk kws lf cf (some (.ok results)) r page ipp).total
          = results.length ∧
      (managerSearch mk kws lf cf (some (.ok results)) r page ipp).has_more
          = decide ((page - 1) * ipp + ipp < (results.length : ℤ)) ∧
      (managerSearch mk kws lf cf (some (.ok results)) r page ipp).error = none) ∧
    ((managerSearch "olx" [] none none (some (.ok results45)) mockR0 1 20).results
        = results45.take 20 ∧
     (managerSearch "olx" [] none none (some (.ok results45)) mockR0 1 20).results.length = 20 ∧
     (managerSearch "olx" [] none none (some (.ok results45)) mockR0 1 20).has_more = true) ∧
    ((managerSearch "olx" [] none none (some (.ok results45)) mockR0 3 20).results
        = results45.drop 40 ∧
     (managerSearch "olx" [] none none (some (.ok results45)) mockR0 3 20).results.length = 5 ∧
     (managerSearch "olx" [] none none (some (.ok results45)) mockR0 3 20).has_more = false) ∧
    ((managerSearch "olx" [] none none (some (.ok results45)) mockR0 4 20).results = [] ∧
     (managerSearch "olx" [] none none (some (.ok results45)) mockR0 4 20).has_more = false) := by
  have main : ∀ (results : List Item) (mk : String) (kws : List String)
       (lf cf : Option String) (r : MockRand) (page ipp : ℤ),
      1 ≤ page → 0 ≤ ipp →
      (managerSearch mk kws lf cf (some (.ok results)) r page ipp).results
          = (results.drop ((page - 1) * ipp).toNat).take ipp.toNat ∧
      (managerSearch mk kws lf cf (some (.ok results)) r page ipp).total
          = results.length ∧
      (managerSearch mk kws lf cf (some (.ok results)) r page ipp).has_more
          = decide ((page - 1) * ipp + ipp < (results.length : ℤ)) ∧
      (managerSearch mk kws lf cf (some (.ok results)) r page ipp).error = none := by
    intro results mk kws lf cf r page ipp hp hipp
    have hstart : (0 : ℤ) ≤ (page - 1) * ipp := mul_nonneg (by omega) hipp
    refine ⟨?_, rfl, rfl, rfl⟩
    show (if (page - 1) * ipp < (results.length : ℤ) then
            pySlice results ((page - 1) * ipp) ((page - 1) * ipp + ipp) else [])
          = (results.drop ((page - 1) * ipp).toNat).take ipp.toNat
    set a := (page - 1) * ipp with ha
    by_cases hlt : a < (results.length : ℤ)
    · rw [if_pos hlt]
      have hs : pySliceIdx results.length a = a.toNat := by
        simp only [pySliceIdx, if_neg (not_lt.mpr hstart)]
        omega
      have hb : (0 : ℤ) ≤ a + ipp := by omega
      have he : pySliceIdx results.length (a + ipp) = min (a + ipp).toNat results.length := by
        simp only [pySliceIdx, if_neg (not_lt.mpr hb)]
      simp only [pySlice, hs, he]
      by_cases hin : (a + ipp).toNat ≤ results.length
      · rw [min_eq_left hin]
        congr 1
        omega
      · rw [min_eq_right (by omega)]
        have hlen : (results.drop a.toNat).length = results.length - a.toNat := by
          simp
        rw [List.take_of_length_le (by omega),
            List.take_of_length_le (by omega)]
    · rw [if_neg hlt]
      rw [List.drop_eq_nil_of_le (by omega), List.take_nil]
  refine ⟨main, ?_, ?_, ?_⟩
  · refine ⟨?_, ?_, ?_⟩
    · have h := (main results45 "olx" [] none none mockR0 1 20 (by norm_num) (by norm_num)).1
      simpa using h
    · have h := (main results45 "olx" [] none none mockR0 1 20 (by norm_num) (by norm_num)).1
      rw [h]
      simp [results45]
    · rfl
  · refine ⟨?_, ?_, ?_⟩
    · have h := (main results45 "olx" [] none none mockR0 3 20 (by norm_num) (by norm_num)).1
      simpa using h
    · have h := (main results45 "olx" [] none none mockR0 3 20 (by norm_num) (by norm_num)).1
      rw [h]
      simp [results45]
    · rfl
  · refine ⟨?_, ?_⟩
    · have h := (main results45 "olx" [] none none mockR0 4 20 (by norm_num) (by norm_num)).1
      rw [h]
      simp [results45]
    · rfl

/-- Witness for C3 at page 2 of the 45-item list. -/
theorem c3_pagination_witness :
    (managerSearch "olx" [] none none (some (.ok results45)) mockR0 2 20).results
        = (results45.drop 20).take 20 ∧
    (managerSearch "olx" [] none none (some (.ok results45)) mockR0 2 20).has_more = true := by
  have h := c3_pagination.1 results45 "olx" [] none none mockR0 2 20
    (by norm_num) (by norm_num)
  exact ⟨by simpa using h.1, by simpa [results45] using h.2.2.1⟩

/-! ## Claim C10: page 0 -/

/-- C10: with `page = 0` and a non-empty scraper result list the slice
bounds become `[-items_per_page : 0]`, so the response simultaneously has
an empty `results` list, the full `total`, and `has_more = true`. -/
theorem c10_page_zero (results : List Item) (mk : String) (kws : List String)
    (lf cf : Option String) (r : MockRand) (ipp : ℤ)
    (hipp : 0 < ipp) (hne : results ≠ []) :
    (managerSearch mk kws lf cf (some (.ok results)) r 0 ipp).results = [] ∧
    (managerSearch mk kws lf cf (some (.ok results)) r 0 ipp).total
      = results.length ∧
    (managerSearch mk kws lf cf (some (.ok results)) r 0 ipp).has_more = true := by
  have hlen : 0 < results.length := List.length_pos.mpr hne
  refine ⟨?_, rfl, ?_⟩
  · show (if (0 - 1) * ipp < (results.length : ℤ) then
            pySlice results ((0 - 1) * ipp) ((0 - 1) * ipp + ipp) else [])
        = []
    rw [if_pos (by push_cast; nlinarith)]
    have he : pySliceIdx results.length ((0 - 1) * ipp + ipp) = 0 := by
      have : (0 - 1) * ipp + ipp = 0 := by ring
      rw [this]
      simp [pySliceIdx]
    simp only [pySlice, he]
    simp
  · show decide ((0 - 1) * ipp + ipp < (results.length : ℤ)) = true
    have : (0 - 1) * ipp + ipp = 0 := by ring
    rw [this]
    simp [hlen]

/-- Witness for C10: page 0 over the 45-item list with the default 20 items
per page. -/
theorem c10_page_zero_witness :
    (managerSearch "olx" [] none none (some (.ok results45)) mockR0 0 20).results = [] ∧
    (managerSearch "olx" [] none none (some (.ok results45)) mockR0 0 20).total = 45 ∧
    (managerSearch "olx" [] none none (some (.ok results45)) mockR0 0 20).has_more = true := by
  have h := c10_page_zero results45 "olx" [] none none mockR0 20
    (by norm_num) (by simp [results45])
  exact ⟨h.1, by simpa [results45] using h.2.1, h.2.2⟩

/-! ## Claim C4: proxy one-way deactivation -/

/-- The claimed proxy-pool invariant, parametrised by the threshold. -/
def proxyInv (m : ℕ) (p : ProxyRec) : Prop :=
  p.failure_count ≥ m → p.is_active = false

/-- C4: for both proxy managers, crossing the failure threshold deactivates
the proxy; a success report resets the failure count but never touches
`is_active` (so it cannot reactivate); once inactive a proxy stays inactive
under any sequence of health-accounting operations; and the invariant
`failure_count ≥ max_failures → is_active = false` is preserved by every
operation of each manager (established outright by the failure reporters). -/
theorem c4_proxy_one_way_deactivation (m : ℕ) :
    (∀ p now, (markFailure m p now).failure_count ≥ m →
      (markFailure m p now).is_active = false) ∧
    (∀ p now, (markSuccess p now).is_active = p.is_active ∧
      (markSuccess p now).failure_count = 0 ∧
      (markSuccess p now).last_used = some now) ∧
    (∀ p, (reportProxyFailure p).failure_count ≥ 5 →
      (reportProxyFailure p).is_active = false) ∧
    (∀ p, (resetFailureCount p).is_active = p.is_active) ∧
    (∀ (p : ProxyRec) (ops : List ProxyOp), p.is_active = false →
      (ops.foldl (applyProxyOp m) p).is_active = false) ∧
    (∀ p now, proxyInv m p → proxyInv m (markSuccess p now)) ∧
    (∀ p now, proxyInv m (markFailure m p now)) ∧
    (∀ p, proxyInv 5 (reportProxyFailure p)) ∧
    (∀ p, proxyInv 5 p → proxyInv 5 (resetFailureCount p)) := by
  have hsucc : ∀ (p : ProxyRec) (now : ℕ),
      (markSuccess p now).is_active = p.is_active ∧
      (markSuccess p now).failure_count = 0 ∧
      (markSuccess p now).last_used = some now := by
    intro p now
    simp only [markSuccess]
    split <;> simp_all <;> omega
  have hfail : ∀ (p : ProxyRec) (now : ℕ), proxyInv m (markFailure m p now) := by
    intro p now
    simp only [markFailure, proxyInv]
    split <;> simp_all
  have hufail : ∀ p : ProxyRec, proxyInv 5 (reportProxyFailure p) := by
    intro p
    simp only [reportProxyFailure, proxyInv]
    split <;> simp_all
  refine ⟨fun p now => hfail p now, hsucc, fun p => hufail p, ?_, ?_, ?_, hfail, hufail, ?_⟩
  · intro p
    simp only [resetFailureCount]
    split <;> rfl
  · intro p ops h
    induction ops generalizing p with
    | nil => exact h
    | cons op rest ih =>
      refine ih (applyProxyOp m p op) ?_
      cases op <;>
        simp only [applyProxyOp, markSuccess, markFailure, reportProxyFailure,
          resetFailureCount] <;>
        split <;> simp_all
  · intro p now hp hge
    have h1 := (hsucc p now).1
    have h2 := (hsucc p now).2.1
    rw [h1]
    exact hp (by omega)
  · intro p hp hge
    simp only [resetFailureCount] at hge ⊢
    split at hge <;> split <;> simp_all [proxyInv] <;> omega

/-- Witness for C4: a proxy at 2 failures under threshold 3 is deactivated
by the third failure and stays inactive through two success reports. -/
theorem c4_proxy_one_way_deactivation_witness :
    (markFailure 3 { is_active := true, failure_count := 2, last_used := none } 10).is_active
      = false ∧
    (([ProxyOp.success 11, ProxyOp.success 12].foldl (applyProxyOp 3)
        (markFailure 3 { is_active := true, failure_count := 2, last_used := none } 10)).is_active
      = false) := by
  have h := c4_proxy_one_way_deactivation 3
  have hde : (markFailure 3 { is_active := true, failure_count := 2, last_used := none } 10).is_active = false :=
    h.1 { is_active := true, failure_count := 2, last_used := none } 10 (by decide)
  exact ⟨hde, h.2.2.2.2.1 _ [ProxyOp.success 11, ProxyOp.success 12] hde⟩

/-! ## Claim C9: fetch with retry -/

/-- Backoff trace `[2^(s+1), ..., 2^(s+n)]` of `n` failed attempts starting
at attempt index `s`. -/
lemma runRetry_all_fail (env : ℕ → Option ℕ) :
    ∀ (n s : ℕ), (∀ j, s ≤ j → j < s + n → env j ≠ some 200) →
    runRetry env n s = (none, (List.range n).map (fun i => 2 ^ (s + i + 1))) := by
  intro n
  induction n with
  | zero => intro s _; simp [runRetry]
  | succ n ih =>
    intro s h
    have hs : ¬ env s = some 200 := h s le_rfl (by omega)
    have ih2 := ih (s + 1) (fun j hj1 hj2 => h j (by omega) (by omega))
    have hmap : (List.range n).map (fun i => 2 ^ (s + 1 + i + 1))
        = (List.range n).map (fun i => 2 ^ (s + (i + 1) + 1)) := by
      apply List.map_congr_left
      intro i _
      congr 1
      omega
    have hlist : (2 : ℕ) ^ (s + 1) :: (List.range n).map (fun i => 2 ^ (s + 1 + i + 1))
        = (List.range (n + 1)).map (fun i => 2 ^ (s + i + 1)) := by
      rw [List.range_succ_eq_map, List.map_cons, List.map_map]
      congr 1
    simp only [runRetry, if_neg hs, ih2]
    rw [← hlist]

lemma runRetry_first_success (env : ℕ → Option ℕ) :
    ∀ (k n s : ℕ), (∀ j, s ≤ j → j < s + k → env j ≠ some 200) →
    env (s + k) = some 200 → k < n →
    runRetry env n s = (some 200, (List.range k).map (fun i => 2 ^ (s + i + 1))) := by
  intro k
  induction k with
  | zero =>
    intro n s _ hk hn
    obtain ⟨n, rfl⟩ : ∃ m, n = m + 1 := ⟨n - 1, by omega⟩
    simp only [Nat.add_zero] at hk
    simp [runRetry, hk]
  | succ k ih =>
    intro n s h hk hn
    obtain ⟨n, rfl⟩ : ∃ m, n = m + 1 := ⟨n - 1, by omega⟩
    have hs : ¬ env s = some 200 := h s le_rfl (by omega)
    have ih2 := ih n (s + 1) (fun j hj1 hj2 => h j (by omega) (by omega))
      (by rw [show s + 1 + k = s + (k + 1) by omega]; exact hk) (by omega)
    have hmap : (List.range k).map (fun i => 2 ^ (s + 1 + i + 1))
        = (List.range k).map (fun i => 2 ^ (s + (i + 1) + 1)) := by
      apply List.map_congr_left
      intro i _
      congr 1
      omega
    have hlist : (2 : ℕ) ^ (s + 1) :: (List.range k).map (fun i => 2 ^ (s + 1 + i + 1))
        = (List.range (k + 1)).map (fun i => 2 ^ (s + i + 1)) := by
      rw [List.range_succ_eq_map, List.map_cons, List.map_map]
      congr 1
    simp only [runRetry, if_neg hs, ih2]
    rw [← hlist]

/-- C9: `get_with_retry` either returns a response or `None`, never
propagating a transport failure: when no attempt yields HTTP 200 within
`max_retries` attempts it returns `None` after sleeping the exponential
backoffs `2^1, ..., 2^max_retries`; when attempt `k` is the first to yield
HTTP 200 it returns that response after `k` backoffs; and with the default
`max_retries = 3` a fully failing endpoint yields `None` after sleeping
2, 4 and 8 seconds. -/
theorem c9_get_with_retry :
    (∀ (env : ℕ → Option ℕ) (m : ℕ), (∀ k, k < m → env k ≠ some 200) →
      getWithRetry env m = (none, (List.range m).map (fun i => 2 ^ (i + 1)))) ∧
    (∀ (env : ℕ → Option ℕ) (k m : ℕ), (∀ j, j < k → env j ≠ some 200) →
      env k = some 200 → k < m →
      getWithRetry env m = (some 200, (List.range k).map (fun i => 2 ^ (i + 1)))) ∧
    getWithRetry (fun _ => none) = (none, [2, 4, 8]) := by
  refine ⟨?_, ?_, ?_⟩
  · intro env m h
    have := runRetry_all_fail env m 0 (fun j hj1 hj2 => h j (by omega))
    simpa [getWithRetry] using this
  · intro env k m h hk hm
    have := runRetry_first_success env k m 0 (fun j hj1 hj2 => h j (by omega))
      (by simpa using hk) hm
    simpa [getWithRetry] using this
  · show runRetry (fun _ => none) 3 0 = (none, [2, 4, 8])
    simp [runRetry]

/-- Witness for C9: one timing-out attempt, then a 200 on the second try. -/
theorem c9_get_with_retry_witness :
    getWithRetry (fun k => if k = 0 then none else some 200) = (some 200, [2]) := by
  have h := c9_get_with_retry.2.1 (fun k => if k = 0 then none else some 200) 1 3
    (by intro j hj; interval_cases j <;> simp)
    (by simp) (by norm_num)
  simpa using h

/-! ## Claim C8: filter predicates

Embeddings of `_passes_filters` of `src/scraper/olx_scraper.py` (lines
878-896), `src/scraper/marketplace_scrapers/otomoto_scraper.py` (lines
746-793) and `src/scraper/marketplace_scrapers/allegro_scraper.py` (lines
643-663).  Every extraction path of these scrapers populates all the keys
the predicate reads, so items are total records here.  `Option.getD` stands
for the dictionary access that the source performs only under the
corresponding `is not None` / truthiness guard. -/

structure OtoMotoItem where
  price : ℚ
  location : String
  make : String
  model : String
  year : Option ℤ
  mileage : Option ℤ
  fuel_type : String
  transmission : String
deriving Repr, DecidableEq

structure OtoMotoFilters where
  price_min : Option ℚ
  price_max : Option ℚ
  location : Option String
  make : Option String
  model : Option String
  year_from : Option ℤ
  year_to : Option ℤ
  mileage_to : Option ℤ
  fuel_type : Option String
  transmission : Option String
deriving Repr, DecidableEq

/-- `OtoMotoScraper._passes_filters`: sequence of early-return rejections. -/
def otomotoPassesFilters (item : OtoMotoItem) (f : OtoMotoFilters) : Bool :=
  if f.price_min.isSome ∧ item.price < f.price_min.getD 0 then false
  else if f.price_max.isSome ∧ f.price_max.getD 0 < item.price then false
  else if pyTruthy f.location
      ∧ ¬ pyIn (pyLower (f.location.getD "")) (pyLower item.location) = true then false
  else if pyTruthy f.make ∧ item.make ≠ "Unknown"
      ∧ pyLower (f.make.getD "") ≠ pyLower item.make then false
  else if pyTruthy f.model ∧ item.model ≠ "Unknown"
      ∧ pyLower (f.model.getD "") ≠ pyLower item.model then false
  else if f.year_from.isSome ∧ item.year.isSome
      ∧ item.year.getD 0 < f.year_from.getD 0 then false
  else if f.year_to.isSome ∧ item.year.isSome
      ∧ f.year_to.getD 0 < item.year.getD 0 then false
  else if f.mileage_to.isSome ∧ item.mileage.isSome
      ∧ f.mileage_to.getD 0 < item.mileage.getD 0 then false
  else if pyTruthy f.fuel_type ∧ item.fuel_type ≠ "unknown"
      ∧ pyLower (f.fuel_type.getD "") ≠ pyLower item.fuel_type then false
  else if pyTruthy f.transmission ∧ item.transmission ≠ "unknown"
      ∧ pyLower (f.transmission.getD "") ≠ pyLower item.transmission then false
  else true

structure BasicFilters where
  price_min : Option ℚ
  price_max : Option ℚ
  location : Option String
  condition : Option String
deriving Repr, DecidableEq

/-- `OLXScraper._passes_filters` (src/scraper/olx_scraper.py): price range,
location substring, condition substring guarded by `!= "Unknown"`. -/
def olxPassesFilters (item : Item) (f : BasicFilters) : Bool :=
  if f.price_min.isSome ∧ item.price < f.price_min.getD 0 then false
  else if f.price_max.isSome ∧ f.price_max.getD 0 < item.price then false
  else if pyTruthy f.location
      ∧ ¬ pyIn (pyLower (f.location.getD "")) (pyLower item.location) = true then false
  else if pyTruthy f.condition ∧ item.condition ≠ "Unknown"
      ∧ ¬ pyIn (pyLower (f.condition.getD "")) (pyLower item.condition) = true then false
  else true

/-- `AllegroScraper._passes_filters`: the condition clause compares the
filter value `new`/`used` against the fixed Polish strings `nowe` /
`używane`, with no `"Unknown"` guard (the inner `if`/`elif` of lines
657-661). -/
def allegroPassesFilters (item : Item) (f : BasicFilters) : Bool :=
  if f.price_min.isSome ∧ item.price < f.price_min.getD 0 then false
  else if f.price_max.isSome ∧ f.price_max.getD 0 < item.price then false
  else if pyTruthy f.location
      ∧ ¬ pyIn (pyLower (f.location.getD "")) (pyLower item.location) = true then false
  else if pyTruthy f.condition then
    if f.condition.getD "" = "new" ∧ item.condition ≠ "nowe" then false
    else if f.condition.getD "" = "used" ∧ item.condition ≠ "używane" then false
    else true
  else true

/-- An Allegro item whose condition is unknown. -/
def allegroUnknownItem : Item :=
  { sampleItem with condition := "Unknown", marketplace := "allegro" }

/-- A filter mapping that only sets `condition = "new"`. -/
def condNewFilters : BasicFilters :=
  { price_min := none, price_max := none, location := none, condition := some "new" }

/-- Counterexample to C8 as stated: `AllegroScraper._passes_filters` rejects
an item whose `condition` is `"Unknown"` under `filters = {condition:
"new"}`, although the claimed pattern (enforce only when the item field is
present and not `"Unknown"`, by case-insensitive substring) would retain
it.  Allegro compares against the fixed Polish values instead. -/
theorem c8_filters_counterexample :
    allegroPassesFilters allegroUnknownItem condNewFilters = false ∧
    allegroUnknownItem.condition = "Unknown" ∧
    pyTruthy condNewFilters.condition = true ∧
    olxPassesFilters allegroUnknownItem condNewFilters = true := by
  refine ⟨?_, rfl, rfl, ?_⟩ <;> decide

/-- An early-return rejection step equals a conjunct. -/
lemma ite_false_chain {c : Prop} [Decidable c] (b : Bool) :
    (if c then false else b) = (!(decide c) && b) := by
  by_cases h : c <;> simp [h]

set_option maxHeartbeats 1600000 in
/-- C8 (amended): the OLX and OtoMoto predicates follow the guarded
pattern — each clause is enforced only when the filter value is set and the
corresponding item field is present and informative (`condition`, `make`,
`model` not `"Unknown"`; `fuel_type`, `transmission` not `"unknown"`;
`year`, `mileage` not `None`), so those predicates reject exactly on the
listed clause mismatches and never fail on an uninformative field; the
Allegro condition clause however deviates: it is enforced whenever
`filters.condition` is truthy, comparing `"new"`/`"used"` against the fixed
strings `"nowe"`/`"używane"` with no `"Unknown"` guard. -/
theorem c8_filters_amended :
    (∀ (item : Item) (f : BasicFilters),
      olxPassesFilters item f = true ↔
        ¬ (f.price_min.isSome ∧ item.price < f.price_min.getD 0) ∧
        ¬ (f.price_max.isSome ∧ f.price_max.getD 0 < item.price) ∧
        ¬ (pyTruthy f.location
            ∧ ¬ pyIn (pyLower (f.location.getD "")) (pyLower item.location) = true) ∧
        ¬ (pyTruthy f.condition ∧ item.condition ≠ "Unknown"
            ∧ ¬ pyIn (pyLower (f.condition.getD "")) (pyLower item.condition) = true)) ∧
    (∀ (item : OtoMotoItem) (f : OtoMotoFilters),
      otomotoPassesFilters item f = true ↔
        ¬ (f.price_min.isSome ∧ item.price < f.price_min.getD 0) ∧
        ¬ (f.price_max.isSome ∧ f.price_max.getD 0 < item.price) ∧
        ¬ (pyTruthy f.location
            ∧ ¬ pyIn (pyLower (f.location.getD "")) (pyLower item.location) = true) ∧
        ¬ (pyTruthy f.make ∧ item.make ≠ "Unknown"
            ∧ pyLower (f.make.getD "") ≠ pyLower item.make) ∧
        ¬ (pyTruthy f.model ∧ item.model ≠ "Unknown"
            ∧ pyLower (f.model.getD "") ≠ pyLower item.model) ∧
        ¬ (f.year_from.isSome ∧ item.year.isSome
            ∧ item.year.getD 0 < f.year_from.getD 0) ∧
        ¬ (f.year_to.isSome ∧ item.year.isSome
            ∧ f.year_to.getD 0 < item.year.getD 0) ∧
        ¬ (f.mileage_to.isSome ∧ item.mileage.isSome
            ∧ f.mileage_to.getD 0 < item.mileage.getD 0) ∧
        ¬ (pyTruthy f.fuel_type ∧ item.fuel_type ≠ "unknown"
            ∧ pyLower (f.fuel_type.getD "") ≠ pyLower item.fuel_type) ∧
        ¬ (pyTruthy f.transmission ∧ item.transmission ≠ "unknown"
            ∧ pyLower (f.transmission.getD "") ≠ pyLower item.transmission)) ∧
    (∀ (item : Item) (f : BasicFilters),
      allegroPassesFilters item f = true ↔
        ¬ (f.price_min.isSome ∧ item.price < f.price_min.getD 0) ∧
        ¬ (f.price_max.isSome ∧ f.price_max.getD 0 < item.price) ∧
        ¬ (pyTruthy f.location
            ∧ ¬ pyIn (pyLower (f.location.getD "")) (pyLower item.location) = true) ∧
        ¬ (pyTruthy f.condition ∧
            ((f.condition.getD "" = "new" ∧ item.condition ≠ "nowe") ∨
             (f.condition.getD "" = "used" ∧ item.condition ≠ "używane")))) := by
  refine ⟨?_, ?_, ?_⟩
  · intro item f
    unfold olxPassesFilters
    simp only [ite_false_chain, Bool.and_eq_true, Bool.not_eq_true',
      decide_eq_false_iff_not, and_true]
  · intro item f
    unfold otomotoPassesFilters
    simp only [ite_false_chain, Bool.and_eq_true, Bool.not_eq_true',
      decide_eq_false_iff_not, and_true]
  · intro item f
    unfold allegroPassesFilters
    simp only [ite_false_chain, Bool.and_eq_true, Bool.not_eq_true',
      decide_eq_false_iff_not, and_true]
    by_cases hc : pyTruthy f.condition = true
    · by_cases h1 : (f.condition.getD "" = "new" ∧ item.condition ≠ "nowe")
      · simp [hc, h1]
      · by_cases h2 : (f.condition.getD "" = "used" ∧ item.condition ≠ "używane")
        · simp [hc, h1, h2]
        · simp [hc, h1, h2]
    · simp [hc]

/-! ## Text matching (src/utils/text_matching.py)

`clean_text`, `fuzzy_match_keywords` and the `difflib.SequenceMatcher`
ratio they rely on.  The keyword strings here are far below difflib's
autojunk limit (200), so the matcher has no junk elements. -/

/-- Python word characters (`\w`) over the alphabets this repository
handles: ASCII alphanumerics, underscore and Polish letters. -/
def pyIsWordChar (c : Char) : Bool :=
  c.isAlpha || c.isDigit || c = '_' || "ąćęłńóśźżĄĆĘŁŃÓŚŹŻ".toList.contains c

/-- `re.sub(r'\s+', ' ', text)`: collapse whitespace runs to single
spaces.  The flag records whether the previous character was whitespace. -/
def collapseWSAux : Bool → List Char → List Char
  | _, [] => []
  | prevSpace, c :: rest =>
    if pyIsSpace c then
      if prevSpace then collapseWSAux true rest
      else ' ' :: collapseWSAux true rest
    else c :: collapseWSAux false rest

/-- Python `str.strip()`. -/
def stripWS (l : List Char) : List Char :=
  ((l.dropWhile pyIsSpace).reverse.dropWhile pyIsSpace).reverse

/-- `clean_text` (lines 7-17): lowercase, drop `[^\w\s]`, collapse
whitespace, strip. -/
def clean_text (s : String) : String :=
  if s = "" then ""
  else
    let t1 := (pyLower s).toList.filter (fun c => pyIsWordChar c || pyIsSpace c)
    String.mk (stripWS (collapseWSAux false t1))

/-- Python `str.split()` (whitespace split, no empty parts); `cur` is the
reversed word being accumulated. -/
def pySplitWSAux (cur : List Char) : List Char → List (List Char)
  | [] => if cur = [] then [] else [cur.reverse]
  | c :: rest =>
    if pyIsSpace c then
      if cur = [] then pySplitWSAux [] rest
      else cur.reverse :: pySplitWSAux [] rest
    else pySplitWSAux (c :: cur) rest

def pySplitWS (l : List Char) : List (List Char) := pySplitWSAux [] l

/-- Best block found so far by `SequenceMatcher.find_longest_match`. -/
structure LMState where
  besti : ℕ
  bestj : ℕ
  bestsize : ℕ
deriving Repr, DecidableEq

/-- One row of the `find_longest_match` dynamic programme: scan the
window `[blo, bhi)` of `b` for occurrences of `a[i]`, extending common
suffix lengths from the previous row (`j2len`) and recording a strictly
longer best block when found (ties keep the earliest block). -/
def lmRow (b : List Char) (blo bhi : ℕ) (ai : Char) (i : ℕ)
    (j2len : ℕ → ℕ) (st0 : LMState) : (ℕ → ℕ) × LMState :=
  (List.range (bhi - blo)).foldl
    (fun (acc : (ℕ → ℕ) × LMState) jo =>
      let j := blo + jo
      if b.getD j ' ' = ai then
        let k := (if j = 0 then 0 else j2len (j - 1)) + 1
        let newf := fun x => if x = j then k else acc.1 x
        let st := if k > acc.2.bestsize then
            { besti := i + 1 - k, bestj := j + 1 - k, bestsize := k } else acc.2
        (newf, st)
      else acc)
    ((fun _ => 0), st0)

/-- `SequenceMatcher.find_longest_match` on the windows
`a[alo:ahi]`, `b[blo:bhi]`, with no junk (the post-scan junk extension
loops cannot fire: the recorded block is a maximal common run). -/
def findLongestMatch (a b : List Char) (alo ahi blo bhi : ℕ) : LMState :=
  ((List.range (ahi - alo)).foldl
    (fun (acc : (ℕ → ℕ) × LMState) io =>
      let i := alo + io
      lmRow b blo bhi (a.getD i ' ') i acc.1 acc.2)
    ((fun _ => 0), { besti := alo, bestj := blo, bestsize := 0 })).2

/-- Total size of all matching blocks (`get_matching_blocks` recursion);
`fuel` bounds the recursion depth, one unit per split of the `a` window,
so any fuel above the window length is enough. -/
def matchingTotalAux (a b : List Char) : ℕ → ℕ → ℕ → ℕ → ℕ → ℕ
  | 0, _, _, _, _ => 0
  | fuel + 1, alo, ahi, blo, bhi =>
    let m := findLongestMatch a b alo ahi blo bhi
    if m.bestsize = 0 then 0
    else
      matchingTotalAux a b fuel alo m.besti blo m.bestj + m.bestsize +
        matchingTotalAux a b fuel (m.besti + m.bestsize) ahi (m.bestj + m.bestsize) bhi

/-- Number of matching characters `M` of `SequenceMatcher(None, a, b)`. -/
def matchingTotal (a b : List Char) : ℕ :=
  matchingTotalAux a b (a.length + 1) 0 a.length 0 b.length

/-- `SequenceMatcher.ratio()`: `2*M / (len(a)+len(b))`, and 1 when both
are empty (difflib `_calculate_ratio`). -/
def similarity (a b : List Char) : ℚ :=
  if a.length + b.length = 0 then 1
  else mkRat (2 * matchingTotal a b) (a.length + b.length)

/-- `fuzzy_match_keywords(text, keywords, threshold=0.8)` (lines 36-79). -/
def fuzzy_match_keywords (text : String) (keywords : List String)
    (threshold : ℚ) : Bool :=
  if text = "" || keywords.isEmpty then false
  else
    let text_clean := clean_text text
    keywords.any fun kw =>
      let kc := clean_text kw
      if kc = "" then false
      else if pyIn kc text_clean then true
      else if pyIn " " kc then
        decide (similarity text_clean.toList kc.toList ≥ threshold)
      else
        (pySplitWS text_clean.toList).any fun w =>
          decide (similarity w kc.toList ≥ threshold)

/-- The threshold passed at the only `fuzzy_match_keywords` call site
(src/scraper/marketplace_scrapers/olx_scraper.py line 359): the literal
`70`, although the callee documents `threshold` as a 0.0-1.0 similarity
and defaults it to 0.8. -/
def olxApiFuzzyThreshold : ℚ := 70

/-- C6: the only call site passes `threshold=70` where the callee expects a
0.0-1.0 ratio, so the fuzzy branch can never fire there: the near-identical
title `"iphon 12"` (similarity 16/17 against `"iphone 12"`) is rejected at
the call site although any threshold in the claimed 70-80% range accepts
it.  The claim's two concrete examples do hold of the function itself when
the threshold is given as a ratio. -/
theorem c6_fuzzy_threshold_code_bug :
    olxApiFuzzyThreshold = 70 ∧
    fuzzy_match_keywords "iphon 12" ["iphone 12"] olxApiFuzzyThreshold = false ∧
    fuzzy_match_keywords "iphon 12" ["iphone 12"] (mkRat 7 10) = true ∧
    fuzzy_match_keywords "iphon 12" ["iphone 12"] (mkRat 8 10) = true ∧
    similarity "iphon 12".toList "iphone 12".toList = mkRat 16 17 ∧
    fuzzy_match_keywords "iPhone 12 Pro Max" ["iphone 12"] (mkRat 7 10) = true ∧
    fuzzy_match_keywords "Krzesło biurowe" ["rower"] (mkRat 8 10) = false := by
  refine ⟨rfl, ?_, ?_, ?_, ?_, ?_, ?_⟩ <;> decide

/-! ## Price extraction (src/utils/text_matching.py, `extract_price`)

`re.search` with the pattern
`(\d+[\s\d]*[,.]\d+|\d+[\s\d]*)\s*([zł€$£]|PLN|EUR|USD|GBP)` is embedded as
a backtracking matcher specialised to this pattern: each sub-pattern maps a
string to its list of (consumed, remainder) splits in Python's
backtracking preference order (greedy quantifiers longest-first,
alternation left-first, sequencing leftmost-major), and the match is the
first full candidate, scanning start positions left to right. -/

/-- Greedy `p*`: all splits, longest first. -/
def starSplits (p : Char → Bool) (s : List Char) : List (List Char × List Char) :=
  let m := (s.takeWhile p).length
  (List.range (m + 1)).map (fun j => (s.take (m - j), s.drop (m - j)))

/-- Greedy `p+`: all non-empty splits, longest first. -/
def plusSplits (p : Char → Bool) (s : List Char) : List (List Char × List Char) :=
  let m := (s.takeWhile p).length
  (List.range m).map (fun j => (s.take (m - j), s.drop (m - j)))

/-- A single character from a class. -/
def charSplits (p : Char → Bool) : List Char → List (List Char × List Char)
  | [] => []
  | c :: rest => if p c then [([c], rest)] else []

/-- A literal token. -/
def litSplits (lit : List Char) (s : List Char) : List (List Char × List Char) :=
  if lit.isPrefixOf s then [(lit, s.drop lit.length)] else []

/-- Sequencing of two sub-patterns (leftmost-major backtracking order). -/
def seqSplits (f g : List Char → List (List Char × List Char))
    (s : List Char) : List (List Char × List Char) :=
  (f s).bind (fun pr => (g pr.2).map (fun qr => (pr.1 ++ qr.1, qr.2)))

/-- Greedy `p?`: with, then without. -/
def optSplits (p : Char → Bool) : List Char → List (List Char × List Char)
  | [] => [([], [])]
  | c :: rest => if p c then [([c], rest), ([], c :: rest)] else [([], c :: rest)]

/-- `\d` (the repository only feeds it ASCII digits). -/
def isDigitB (c : Char) : Bool := c.isDigit

/-- `[\s\d]`. -/
def isSpaceDigitB (c : Char) : Bool := pyIsSpace c || c.isDigit

/-- `[,.]`. -/
def isSepB (c : Char) : Bool := c = ',' || c = '.'

/-- `[zł€$£]` — a class of single characters, so the letter `z` alone
matches (the `ł` of a trailing `zł` is not consumed). -/
def isCurrencySymB (c : Char) : Bool :=
  c = 'z' || c = 'ł' || c = '€' || c = '$' || c = '£'

/-- First alternative of the numeric group: `\d+[\s\d]*[,.]\d+`. -/
def numSplitsA : List Char → List (List Char × List Char) :=
  seqSplits (plusSplits isDigitB)
    (seqSplits (starSplits isSpaceDigitB)
      (seqSplits (charSplits isSepB) (plusSplits isDigitB)))

/-- Second alternative: `\d+[\s\d]*`. -/
def numSplitsB : List Char → List (List Char × List Char) :=
  seqSplits (plusSplits isDigitB) (starSplits isSpaceDigitB)

/-- The captured numeric group `(\d+[\s\d]*[,.]\d+|\d+[\s\d]*)`. -/
def numSplits (s : List Char) : List (List Char × List Char) :=
  numSplitsA s ++ numSplitsB s

/-- The captured currency group `([zł€$£]|PLN|EUR|USD|GBP)`. -/
def curSplits (s : List Char) : List (List Char × List Char) :=
  charSplits isCurrencySymB s ++ litSplits "PLN".toList s ++
    litSplits "EUR".toList s ++ litSplits "USD".toList s ++ litSplits "GBP".toList s

/-- All full matches of the price pattern anchored at the start of `s`,
returning the two captured groups, in backtracking preference order. -/
def priceMatchCands (s : List Char) : List (List Char × List Char) :=
  (numSplits s).bind (fun g1 =>
    (starSplits pyIsSpace g1.2).bind (fun sp =>
      (curSplits sp.2).map (fun g2 => (g1.1, g2.1))))

/-- The match chosen at this position. -/
def priceMatchAt (s : List Char) : Option (List Char × List Char) :=
  (priceMatchCands s).head?

/-- `re.search(price_pattern, text)`: earliest position wins. -/
def searchPrice : List Char → Option (List Char × List Char)
  | [] => none
  | c :: rest =>
    match priceMatchAt (c :: rest) with
    | some m => some m
    | none => searchPrice rest

/-- `re.search(number_pattern, text)` for the bare numeric pattern. -/
def searchNum : List Char → Option (List Char)
  | [] => none
  | c :: rest =>
    match ((numSplits (c :: rest)).map (fun pr => pr.1)).head? with
    | some g => some g
    | none => searchNum rest

/-- Numeric value of a digit string. -/
def digitsVal (ds : List Char) : ℕ :=
  ds.foldl (fun a c => 10 * a + (c.toNat - '0'.toNat)) 0

/-- Python `float(s)` on the strings this code feeds it: plain digits, or
digits around a single dot (either side possibly empty, as in `"123."`).
Anything else — e.g. a tab left inside the group — raises, i.e. `none`. -/
def pyFloatQ (s : List Char) : Option ℚ :=
  let ip := s.takeWhile Char.isDigit
  match s.dropWhile Char.isDigit with
  | [] => if ip.isEmpty then none else some (mkRat (digitsVal ip) 1)
  | c :: fp =>
    if c = '.' ∧ fp.all Char.isDigit ∧ (ip ≠ [] ∨ fp ≠ []) then
      some (mkRat (digitsVal ip * 10 ^ fp.length + digitsVal fp) (10 ^ fp.length))
    else none

/-- `.replace(" ", "").replace(",", ".")` on a captured group. -/
def cleanNumber (g : List Char) : List Char :=
  (g.filter (fun c => c ≠ ' ')).map (fun c => if c = ',' then '.' else c)

/-- `extract_price` (lines 81-130). -/
def extract_price (text : String) : Option (ℚ × String) :=
  if text = "" then none
  else
    match searchPrice text.toList with
    | some (g1, g2) =>
      match pyFloatQ (cleanNumber g1) with
      | none => none
      | some q =>
        let cur :=
          if g2 = "€".toList ∨ g2 = "EUR".toList then "EUR"
          else if g2 = "$".toList ∨ g2 = "USD".toList then "USD"
          else if g2 = "£".toList ∨ g2 = "GBP".toList then "GBP"
          else "PLN"
        some (q, cur)
    | none =>
      match searchNum text.toList with
      | some g1 =>
        match pyFloatQ (cleanNumber g1) with
        | none => none
        | some q => some (q, "PLN")
      | none => none

/-! Helper lemmas: the head of each candidate list is the greedy choice, and
heads compose through sequencing, so the head of the composite candidate
list is Python's chosen match. -/

lemma head?_append_some {α : Type} {l1 l2 : List α} {x : α}
    (h : l1.head? = some x) : (l1 ++ l2).head? = some x := by
  cases l1 <;> simp_all

lemma head?_bind_some {α β : Type} {xs : List α} {f : α → List β} {x : α} {y : β}
    (hx : xs.head? = some x) (hy : (f x).head? = some y) :
    (xs.bind f).head? = some y := by
  cases xs with
  | nil => simp at hx
  | cons a t =>
    simp only [List.head?_cons, Option.some.injEq] at hx
    subst hx
    show ((f a ++ t.bind f)).head? = some y
    exact head?_append_some hy

lemma head?_seqSplits {f g : List Char → List (List Char × List Char)}
    {s m1 r1 m2 r2 : List Char}
    (hf : (f s).head? = some (m1, r1)) (hg : (g r1).head? = some (m2, r2)) :
    (seqSplits f g s).head? = some (m1 ++ m2, r2) := by
  unfold seqSplits
  refine head?_bind_some hf ?_
  rw [List.head?_map, hg]
  rfl

lemma takeWhile_append_all {p : Char → Bool} {t r : List Char}
    (ht : ∀ c ∈ t, p c = true) (hr : ∀ c, r.head? = some c → p c = false) :
    (t ++ r).takeWhile p = t ∧ (t ++ r).dropWhile p = r := by
  induction t with
  | nil =>
    simp only [List.nil_append]
    cases r with
    | nil => simp
    | cons c r2 =>
      have hc : p c = false := hr c rfl
      simp [List.takeWhile_cons, List.dropWhile_cons, hc]
  | cons a t2 ih =>
    have ha : p a = true := ht a (by simp)
    have iht := ih (fun c hc => ht c (by simp [hc]))
    simp [List.takeWhile_cons, List.dropWhile_cons, ha, iht.1, iht.2]

lemma starSplits_head {p : Char → Bool} {t r : List Char}
    (ht : ∀ c ∈ t, p c = true) (hr : ∀ c, r.head? = some c → p c = false) :
    (starSplits p (t ++ r)).head? = some (t, r) := by
  have h := takeWhile_append_all ht hr
  unfold starSplits
  simp only [h.1, List.length_append]
  rw [List.range_succ_eq_map, List.map_cons, List.head?_cons]
  simp [List.take_left, List.drop_left]

lemma plusSplits_head {p : Char → Bool} {t r : List Char} (htne : t ≠ [])
    (ht : ∀ c ∈ t, p c = true) (hr : ∀ c, r.head? = some c → p c = false) :
    (plusSplits p (t ++ r)).head? = some (t, r) := by
  have h := takeWhile_append_all ht hr
  unfold plusSplits
  simp only [h.1]
  obtain ⟨n, hn⟩ : ∃ n, t.length = n + 1 := by
    cases t with
    | nil => exact absurd rfl htne
    | cons a t2 => exact ⟨t2.length, rfl⟩
  rw [hn, List.range_succ_eq_map, List.map_cons, List.head?_cons]
  have : t.length - 0 = t.length := by omega
  simp only [Nat.sub_zero, ← hn]
  simp [List.take_left, List.drop_left]

lemma charSplits_head {p : Char → Bool} {c : Char} {rest : List Char}
    (h : p c = true) : (charSplits p (c :: rest)).head? = some ([c], rest) := by
  simp [charSplits, h]

/-- The ten ASCII digits. -/
def digits09 : List Char := ['0', '1', '2', '3', '4', '5', '6', '7', '8', '9']

lemma digits09_facts {c : Char} (h : c ∈ digits09) :
    Char.isDigit c = true ∧ c ≠ ' ' ∧ isSpaceDigitB c = true ∧
    isSepB c = false ∧ isDigitB c = true ∧ c ≠ ',' ∧ pyIsSpace c = false := by
  fin_cases h <;> refine ⟨rfl, ?_, rfl, rfl, rfl, ?_, rfl⟩ <;> decide

/-- Space-separated thousands groups: `"1 234 567"` from
`[['1'], ['2','3','4'], ['5','6','7']]`. -/
def renderGroups : List (List Char) → List Char
  | [] => []
  | [g] => g
  | g :: g2 :: t => g ++ ' ' :: renderGroups (g2 :: t)

/-- A price string of the claimed form `"<int>[.,]<int> zł"`. -/
def renderPrice (gs : List (List Char)) (sep : Char) (frac : List Char) : List Char :=
  renderGroups gs ++ sep :: (frac ++ [' ', 'z', 'ł'])

/-- The numeric value the claim assigns to such a string: strip the spaces,
read the comma (or dot) as decimal point. -/
def familyValue (gs : List (List Char)) (frac : List Char) : ℚ :=
  mkRat (digitsVal gs.join * 10 ^ frac.length + digitsVal frac) (10 ^ frac.length)

lemma renderGroups_chars {gs : List (List Char)}
    (h : ∀ g ∈ gs, ∀ c ∈ g, c ∈ digits09) :
    ∀ c ∈ renderGroups gs, isSpaceDigitB c = true := by
  induction gs with
  | nil => simp [renderGroups]
  | cons g rest ih =>
    cases rest with
    | nil =>
      intro c hc
      exact (digits09_facts (h g (by simp) c (by simpa [renderGroups] using hc))).2.2.1
    | cons g2 t =>
      intro c hc
      rw [show renderGroups (g :: g2 :: t) = g ++ ' ' :: renderGroups (g2 :: t) from rfl] at hc
      rcases List.mem_append.mp hc with hg | htail
      · exact (digits09_facts (h g (by simp) c hg)).2.2.1
      · rcases List.mem_cons.mp htail with rfl | hmem
        · rfl
        · exact ih (fun g3 hg3 c2 hc2 => h g3 (by simp [hg3]) c2 hc2) c hmem

lemma cleanNumber_append (a b : List Char) :
    cleanNumber (a ++ b) = cleanNumber a ++ cleanNumber b := by
  simp [cleanNumber]

lemma cleanNumber_digits {g : List Char} (h : ∀ c ∈ g, c ∈ digits09) :
    cleanNumber g = g := by
  induction g with
  | nil => rfl
  | cons c t ih =>
    have hc := digits09_facts (h c (by simp))
    have iht := ih (fun c2 hc2 => h c2 (by simp [hc2]))
    simp only [cleanNumber, List.filter_cons, List.map_cons] at iht ⊢
    simp only [decide_not] at iht
    simp [hc.2.1, hc.2.2.2.2.2.1, iht]

lemma cleanNumber_renderGroups {gs : List (List Char)}
    (h : ∀ g ∈ gs, ∀ c ∈ g, c ∈ digits09) :
    cleanNumber (renderGroups gs) = gs.join := by
  induction gs with
  | nil => rfl
  | cons g rest ih =>
    cases rest with
    | nil =>
      rw [show renderGroups [g] = g from rfl, cleanNumber_digits (h g (by simp)),
        List.join]
      simp
    | cons g2 t =>
      rw [show renderGroups (g :: g2 :: t) = g ++ ' ' :: renderGroups (g2 :: t) from rfl]
      rw [show (g ++ ' ' :: renderGroups (g2 :: t)) = g ++ [' '] ++ renderGroups (g2 :: t) by simp]
      rw [cleanNumber_append, cleanNumber_append,
        cleanNumber_digits (h g (by simp)),
        ih (fun g3 hg3 c2 hc2 => h g3 (by simp [hg3]) c2 hc2)]
      rw [show cleanNumber [' '] = [] from rfl]
      simp [List.join]

lemma pyFloatQ_decimal {J frac : List Char} (hJ : J ≠ [])
    (hJd : ∀ c ∈ J, c ∈ digits09) (hfd : ∀ c ∈ frac, c ∈ digits09) :
    pyFloatQ (J ++ '.' :: frac)
      = some (mkRat (digitsVal J * 10 ^ frac.length + digitsVal frac)
          (10 ^ frac.length)) := by
  have hsplit := takeWhile_append_all (p := Char.isDigit)
    (t := J) (r := '.' :: frac)
    (fun c hc => (digits09_facts (hJd c hc)).1)
    (fun c hc => by
      simp only [List.head?_cons, Option.some.injEq] at hc
      subst hc
      rfl)
  unfold pyFloatQ
  rw [hsplit.1, hsplit.2]
  have hfall : frac.all Char.isDigit = true :=
    List.all_eq_true.mpr (fun c hc => (digits09_facts (hfd c hc)).1)
  simp [hfall, hJ]

/-- C5: every string `"<int>[.,]<int> zł"` — non-empty space-separated
digit groups, a comma or dot decimal separator, a non-empty fraction,
then the `zł` marker — parses to the value obtained by stripping the
spaces and reading the separator as a decimal point, with currency PLN
(the `[zł€$£]` class matches the `z`, which maps to the PLN default); and
the currency inference on the other markers and the claimed example
behave as specified, `"1 234,50 zł"` giving `1234.50` PLN. -/
theorem c5_price_parsing :
    (∀ (gs : List (List Char)) (sep : Char) (frac : List Char),
      gs ≠ [] →
      (∀ g ∈ gs, g ≠ [] ∧ ∀ c ∈ g, c ∈ digits09) →
      (sep = ',' ∨ sep = '.') →
      frac ≠ [] →
      (∀ c ∈ frac, c ∈ digits09) →
      extract_price (String.mk (renderPrice gs sep frac))
        = some (familyValue gs frac, "PLN")) ∧
    extract_price "1 234,50 zł" = some (mkRat 2469 2, "PLN") ∧
    extract_price "100 EUR" = some (100, "EUR") ∧
    extract_price "100€" = some (100, "EUR") ∧
    extract_price "100 $" = some (100, "USD") ∧
    extract_price "100 USD" = some (100, "USD") ∧
    extract_price "50 £" = some (50, "GBP") ∧
    extract_price "100 GBP" = some (100, "GBP") ∧
    extract_price "12,5 PLN" = some (mkRat 25 2, "PLN") ∧
    extract_price "99" = some (99, "PLN") := by
  refine ⟨?_, by decide, by decide, by decide, by decide, by decide, by decide,
    by decide, by decide, by decide⟩
  intro gs sep frac hne hg hsep hfne hf
  obtain ⟨g0, gs', rfl⟩ : ∃ g0 gs', gs = g0 :: gs' := by
    cases gs with
    | nil => exact absurd rfl hne
    | cons a b => exact ⟨a, b, rfl⟩
  obtain ⟨hg0ne, hg0d⟩ := hg g0 (by simp)
  have hgs' : ∀ g ∈ gs', ∀ c ∈ g, c ∈ digits09 :=
    fun g hgm c hc => (hg g (by simp [hgm])).2 c hc
  have hsep1 : isSepB sep = true := by rcases hsep with rfl | rfl <;> rfl
  have hsep2 : isDigitB sep = false := by rcases hsep with rfl | rfl <;> rfl
  have hsep3 : isSpaceDigitB sep = false := by rcases hsep with rfl | rfl <;> rfl
  have hsepclean : cleanNumber [sep] = ['.'] := by rcases hsep with rfl | rfl <;> rfl
  obtain ⟨T, hrender, hTchars, hTclean, hR1head⟩ :
      ∃ T, renderGroups (g0 :: gs') = g0 ++ T
        ∧ (∀ c ∈ T, isSpaceDigitB c = true)
        ∧ cleanNumber T = gs'.join
        ∧ (∀ c, (T ++ sep :: (frac ++ [' ', 'z', 'ł'])).head? = some c →
            isDigitB c = false) := by
    cases gs' with
    | nil =>
      refine ⟨[], by simp [renderGroups], by simp, rfl, ?_⟩
      intro c hc
      simp only [List.nil_append, List.head?_cons, Option.some.injEq] at hc
      subst hc
      exact hsep2
    | cons g2 t =>
      refine ⟨' ' :: renderGroups (g2 :: t), rfl, ?_, ?_, ?_⟩
      · intro c hc
        rcases List.mem_cons.mp hc with rfl | hm
        · rfl
        · exact renderGroups_chars hgs' c hm
      · rw [show (' ' :: renderGroups (g2 :: t)) = [' '] ++ renderGroups (g2 :: t)
            from rfl, cleanNumber_append, cleanNumber_renderGroups hgs']
        rfl
      · intro c hc
        simp only [List.cons_append, List.head?_cons, Option.some.injEq] at hc
        subst hc
        rfl
  have hs : renderPrice (g0 :: gs') sep frac
      = g0 ++ (T ++ sep :: (frac ++ [' ', 'z', 'ł'])) := by
    rw [renderPrice, hrender, List.append_assoc]
  have h1 : (plusSplits isDigitB (g0 ++ (T ++ sep :: (frac ++ [' ', 'z', 'ł'])))).head?
      = some (g0, T ++ sep :: (frac ++ [' ', 'z', 'ł'])) :=
    plusSplits_head hg0ne
      (fun c hc => (digits09_facts (hg0d c hc)).2.2.2.2.1) hR1head
  have h2 : (starSplits isSpaceDigitB (T ++ sep :: (frac ++ [' ', 'z', 'ł']))).head?
      = some (T, sep :: (frac ++ [' ', 'z', 'ł'])) :=
    starSplits_head hTchars (fun c hc => by
      simp only [List.head?_cons, Option.some.injEq] at hc
      subst hc
      exact hsep3)
  have h3 : (charSplits isSepB (sep :: (frac ++ [' ', 'z', 'ł']))).head?
      = some ([sep], frac ++ [' ', 'z', 'ł']) := charSplits_head hsep1
  have h4 : (plusSplits isDigitB (frac ++ [' ', 'z', 'ł'])).head?
      = some (frac, [' ', 'z', 'ł']) :=
    plusSplits_head hfne
      (fun c hc => (digits09_facts (hf c hc)).2.2.2.2.1)
      (fun c hc => by
        simp only [List.head?_cons, Option.some.injEq] at hc
        subst hc
        rfl)
  have hA : (numSplitsA (g0 ++ (T ++ sep :: (frac ++ [' ', 'z', 'ł'])))).head?
      = some (g0 ++ (T ++ ([sep] ++ frac)), [' ', 'z', 'ł']) := by
    unfold numSplitsA
    exact head?_seqSplits h1 (head?_seqSplits h2 (head?_seqSplits h3 h4))
  have hnum : (numSplits (g0 ++ (T ++ sep :: (frac ++ [' ', 'z', 'ł'])))).head?
      = some (g0 ++ (T ++ ([sep] ++ frac)), [' ', 'z', 'ł']) := by
    unfold numSplits
    exact head?_append_some hA
  have hcands :
      (priceMatchCands (g0 ++ (T ++ sep :: (frac ++ [' ', 'z', 'ł'])))).head?
        = some (g0 ++ (T ++ ([sep] ++ frac)), ['z']) := by
    unfold priceMatchCands
    refine head?_bind_some hnum ?_
    refine head?_bind_some (x := ([' '], ['z', 'ł'])) (by rfl) ?_
    rfl
  have hmatchAt : priceMatchAt (g0 ++ (T ++ sep :: (frac ++ [' ', 'z', 'ł'])))
      = some (g0 ++ (T ++ ([sep] ++ frac)), ['z']) := hcands
  obtain ⟨c0, t0, rfl⟩ : ∃ c0 t0, g0 = c0 :: t0 := by
    cases g0 with
    | nil => exact absurd rfl hg0ne
    | cons a b => exact ⟨a, b, rfl⟩
  have hsearch : searchPrice ((c0 :: t0) ++ (T ++ sep :: (frac ++ [' ', 'z', 'ł'])))
      = some ((c0 :: t0) ++ (T ++ ([sep] ++ frac)), ['z']) := by
    show searchPrice (c0 :: (t0 ++ (T ++ sep :: (frac ++ [' ', 'z', 'ł'])))) = _
    rw [searchPrice]
    have : priceMatchAt (c0 :: (t0 ++ (T ++ sep :: (frac ++ [' ', 'z', 'ł']))))
        = some ((c0 :: t0) ++ (T ++ ([sep] ++ frac)), ['z']) := hmatchAt
    rw [this]
  have hclean : cleanNumber ((c0 :: t0) ++ (T ++ ([sep] ++ frac)))
      = ((c0 :: t0) :: gs').join ++ '.' :: frac := by
    rw [cleanNumber_append, cleanNumber_append, cleanNumber_append,
      cleanNumber_digits hg0d, hTclean, hsepclean, cleanNumber_digits hf]
    simp [List.append_assoc]
  have hjoinne : ((c0 :: t0) :: gs').join ≠ [] := by
    simp [List.join]
  have hjoind : ∀ c ∈ ((c0 :: t0) :: gs').join, c ∈ digits09 := by
    intro c hc
    rcases List.mem_join.mp hc with ⟨g, hgm, hcg⟩
    rcases List.mem_cons.mp hgm with rfl | hgm2
    · exact hg0d c hcg
    · exact hgs' g hgm2 c hcg
  have hguard : String.mk ((c0 :: t0) ++ (T ++ sep :: (frac ++ [' ', 'z', 'ł']))) ≠ "" := by
    simp [String.ext_iff]
  rw [hs]
  unfold extract_price
  rw [if_neg hguard]
  rw [show (String.mk ((c0 :: t0) ++ (T ++ sep :: (frac ++ [' ', 'z', 'ł'])))).toList
      = (c0 :: t0) ++ (T ++ sep :: (frac ++ [' ', 'z', 'ł'])) from rfl]
  rw [hsearch]
  dsimp only
  rw [hclean, pyFloatQ_decimal hjoinne hjoind hf]
  dsimp only
  rw [if_neg (by decide), if_neg (by decide), if_neg (by decide)]
  rfl

/-- Witness for C5: `"1 234,50 zł"` through the family theorem. -/
theorem c5_price_parsing_witness :
    extract_price (String.mk (renderPrice [['1'], ['2', '3', '4']] ',' ['5', '0']))
      = some (familyValue [['1'], ['2', '3', '4']] ['5', '0'], "PLN") ∧
    familyValue [['1'], ['2', '3', '4']] ['5', '0'] = mkRat 2469 2 := by
  refine ⟨c5_price_parsing.1 [['1'], ['2', '3', '4']] ',' ['5', '0']
    (by decide) (by decide) (by decide) (by decide) (by decide), by decide⟩

/-! ## Trafilatura-strategy item extraction
(`OLXScraper._parse_with_trafilatura`, src/scraper/olx_scraper.py lines
134-246: the per-container body of the listing loop)

A listing container is abstracted by what its selector cascades deliver:
the stripped text of each title selector in cascade order (`""` encodes a
missed selector or whitespace-only text), the header-element fallback
texts, the price and location element texts (`none` = no element matched),
and the first truthy image attribute as an (attribute, value) pair.  The
dictionary the code builds always carries `seller_name = "Unknown"`,
`seller_rating = None` and `condition = "Unknown"` (details-page fields),
and no `description` key (embedded as `""`). -/

structure TrafContainer where
  linkFound : Bool
  href : String
  titleTexts : List String
  headerTexts : List String
  priceText : Option String
  locationText : Option String
  imageAttr : Option (String × String)
deriving Repr, DecidableEq

/-- The trafilatura price regex `(\d+[\s\d]*\d*,?\d*)` anchored at one
position. -/
def numSplitsT : List Char → List (List Char × List Char) :=
  seqSplits (plusSplits isDigitB)
    (seqSplits (starSplits isSpaceDigitB)
      (seqSplits (starSplits isDigitB)
        (seqSplits (optSplits (fun c => c = ','))
          (starSplits isDigitB))))

/-- `re.search` for that pattern. -/
def searchNumT : List Char → Option (List Char)
  | [] => none
  | c :: rest =>
    match ((numSplitsT (c :: rest)).map (fun pr => pr.1)).head? with
    | some g => some g
    | none => searchNumT rest

/-- Python `str.split(sep)` for a single-character separator (empty parts
kept); `cur` is the reversed current part. -/
def pySplitCharAux (sep : Char) (cur : List Char) : List Char → List (List Char)
  | [] => [cur.reverse]
  | c :: rest =>
    if c = sep then cur.reverse :: pySplitCharAux sep [] rest
    else pySplitCharAux sep (c :: cur) rest

def pySplitChar (sep : Char) (s : String) : List String :=
  (pySplitCharAux sep [] s.toList).map String.mk

/-- Python `str.strip()` on a string. -/
def pyStrip (s : String) : String := String.mk (stripWS s.toList)

/-- `item_url`: resolve a relative href against the base URL. -/
def trafItemUrl (base_url : String) (c : TrafContainer) : String :=
  if c.href ≠ "" ∧ ¬ String.isPrefixOf "http" c.href then base_url ++ c.href
  else c.href

/-- The iphone-URL title fallback: first `/`-separated URL part containing
`iphone`, hyphens to spaces, title-cased. -/
def titleFromUrl (item_url : String) : Option String :=
  ((pySplitChar '/' item_url).find? (fun part => pyIn "iphone" (pyLower part))).map
    (fun part => pyTitle (String.mk (part.toList.map
      (fun ch => if ch = '-' then ' ' else ch))))

/-- One iteration of the listing loop of `_parse_with_trafilatura`
(lines 134-246): `none` models the `continue` taken when no link element
is found; every other path builds an item, each field falling back to its
default on a missing or malformed source. -/
def parseTrafContainer (base_url : String) (c : TrafContainer) : Option Item :=
  if ¬ c.linkFound then none
  else
    let item_url := trafItemUrl base_url c
    let t1 := (c.titleTexts.find? (fun t => t ≠ "")).getD "Unknown Title"
    let t2 := if t1 = "Unknown Title" then
        (c.headerTexts.find? (fun t => t ≠ "")).getD "Unknown Title"
      else t1
    let t3 := if t2 = "Unknown Title" ∧ pyIn "iphone" (pyLower item_url) then
        (titleFromUrl item_url).getD t2
      else t2
    let price_text := c.priceText.getD "0 zł"
    let price : ℚ :=
      match searchNumT price_text.toList with
      | some g => (pyFloatQ (cleanNumber g)).getD 0
      | none => 0
    let locParts :=
      match c.locationText with
      | none => ("Unknown", "Unknown")
      | some t =>
        let parts := t.splitOn " - "
        (pyStrip (parts.getD 0 ""),
         if parts.length > 1 then pyStrip (parts.getD 1 "") else "Unknown")
    let image_url : Option String :=
      match c.imageAttr with
      | none => none
      | some (attr, v) =>
        some (if attr = "srcset" ∧ pyIn " " v then
            String.mk (v.toList.takeWhile (fun ch => ch ≠ ' '))
          else v)
    some { title := t3, price := price, currency := "PLN", descr := ""
           url := item_url, image_url := image_url, marketplace := "olx"
           location := locParts.1, posted_at := locParts.2
           seller_name := "Unknown", seller_rating := none
           condition := "Unknown" }

lemma searchNumT_no_digit {s : List Char} (h : ∀ c ∈ s, isDigitB c = false) :
    searchNumT s = none := by
  induction s with
  | nil => rfl
  | cons c rest ih =>
    have hc : isDigitB c = false := h c (by simp)
    have hplus : plusSplits isDigitB (c :: rest) = [] := by
      simp [plusSplits, List.takeWhile_cons, hc]
    rw [searchNumT]
    rw [show numSplitsT (c :: rest)
        = (plusSplits isDigitB (c :: rest)).bind _ from rfl, hplus]
    simp only [List.nil_bind, List.map_nil, List.head?_nil]
    exact ih (fun c2 hc2 => h c2 (by simp [hc2]))

/-- A listing container in which every selector missed. -/
def emptyTrafContainer : TrafContainer :=
  { linkFound := true, href := "", titleTexts := ["", "", ""], headerTexts := []
    priceText := none, locationText := none, imageAttr := none }

/-- Counterexample to C7 as stated: in the cited OLX trafilatura parser the
title default is the string `"Unknown Title"`, not the claimed
`"Unknown Item"` (that default belongs to the other marketplace scrapers). -/
theorem c7_defaults_counterexample :
    (parseTrafContainer "https://www.olx.pl" emptyTrafContainer).map Item.title
      = some "Unknown Title" ∧
    "Unknown Title" ≠ "Unknown Item" := by
  refine ⟨?_, by decide⟩
  rfl

/-- C7 (amended): extraction of a single listing never raises — a missing
link element only skips the one item, and every other container yields an
item whose fields degrade individually: price 0.0 when the price element
is missing or its text has no digits, title `"Unknown Title"` (not
`"Unknown Item"`) when every title and header selector misses and the URL
carries no iphone hint, location and posted-at `"Unknown"` without a
location element, a null image without an image attribute, and the
constant `"Unknown"` seller and condition. -/
theorem c7_extraction_defaults_amended (base : String) (c : TrafContainer) :
    ((parseTrafContainer base c).isSome ↔ c.linkFound = true) ∧
    (∀ item, parseTrafContainer base c = some item →
      (((∀ t ∈ c.titleTexts, t = "") → (∀ t ∈ c.headerTexts, t = "") →
          pyIn "iphone" (pyLower (trafItemUrl base c)) = false →
          item.title = "Unknown Title") ∧
       (c.priceText = none → item.price = 0) ∧
       (∀ s, c.priceText = some s → (∀ ch ∈ s.toList, isDigitB ch = false) →
          item.price = 0) ∧
       (c.locationText = none →
          item.location = "Unknown" ∧ item.posted_at = "Unknown") ∧
       (c.imageAttr = none → item.image_url = none) ∧
       item.seller_name = "Unknown" ∧
       item.condition = "Unknown" ∧
       item.currency = "PLN")) := by
  constructor
  · unfold parseTrafContainer
    by_cases h : c.linkFound <;> simp [h]
  · intro item hitem
    unfold parseTrafContainer at hitem
    by_cases hlink : c.linkFound
    · rw [if_neg (by simpa using hlink)] at hitem
      dsimp only at hitem
      have h2 := Option.some.inj hitem
      subst h2
      refine ⟨?_, ?_, ?_, ?_, ?_, rfl, rfl, rfl⟩
      · intro ht hh hurl
        have hfind1 : c.titleTexts.find? (fun t => t ≠ "") = none := by
          rw [List.find?_eq_none]
          intro t htm
          simpa using ht t htm
        have hfind2 : c.headerTexts.find? (fun t => t ≠ "") = none := by
          rw [List.find?_eq_none]
          intro t htm
          simpa using hh t htm
        simp only [decide_not] at hfind1 hfind2
        show (if _ then _ else _) = "Unknown Title"
        simp [hfind1, hfind2, hurl]
      · intro hp
        show (match searchNumT (c.priceText.getD "0 zł").toList with
              | some g => (pyFloatQ (cleanNumber g)).getD 0
              | none => (0 : ℚ)) = (0 : ℚ)
        rw [hp]
        decide
      · intro s hs hnd
        show (match searchNumT (c.priceText.getD "0 zł").toList with
              | some g => (pyFloatQ (cleanNumber g)).getD 0
              | none => (0 : ℚ)) = (0 : ℚ)
        rw [hs]
        show (match searchNumT s.toList with
              | some g => (pyFloatQ (cleanNumber g)).getD 0
              | none => (0 : ℚ)) = (0 : ℚ)
        rw [searchNumT_no_digit hnd]
      · intro hl
        constructor
        · show (match c.locationText with
                | none => ("Unknown", "Unknown")
                | some t => _).1 = "Unknown"
          rw [hl]
        · show (match c.locationText with
                | none => ("Unknown", "Unknown")
                | some t => _).2 = "Unknown"
          rw [hl]
      · intro hi
        show (match c.imageAttr with
              | none => none
              | some (attr, v) => _) = none
        rw [hi]
    · rw [if_pos (by simpa using hlink)] at hitem
      exact absurd hitem (by simp)

/-- Witness for the amended C7 at the all-missing container. -/
theorem c7_extraction_defaults_amended_witness :
    (parseTrafContainer "https://www.olx.pl" emptyTrafContainer).isSome = true ∧
    (parseTrafContainer "https://www.olx.pl" emptyTrafContainer).map Item.price
      = some 0 := by
  have h := c7_extraction_defaults_amended "https://www.olx.pl" emptyTrafContainer
  have hsome : (parseTrafContainer "https://www.olx.pl" emptyTrafContainer).isSome := by
    rw [h.1]
    rfl
  obtain ⟨item, hitem⟩ := Option.isSome_iff_exists.mp hsome
  have hp := (h.2 item hitem).2.1 rfl
  exact ⟨hsome, by rw [hitem, Option.map_some', hp]⟩
